import Mathlib

/-!
Verification development for the receipt-ingestion pipeline in
`recommender/full_deployment.py` (function `full_deployment`).

The embedding is shallow: the persisted tabular store is a `DataFrame`
(a parsed CSV), the filesystem is a partial map from paths to file
contents, and every external collaborator (OCR model, field extractor,
product recommender, proximity recommender) is an oracle carried by an
`Env` record.  The pipeline itself — validation gates, the bounded
retry loop, the backup-then-write append, and the recommendation calls —
is translated line by line from the Python source.
-/

namespace MC

/-- A cell of the tabular store. `none` models a null / NaN entry,
which is what `pandas.read_csv` produces for an empty field. -/
abbrev Cell := Option String

/-- A parsed tabular file: `pandas.DataFrame` with named columns and a
list of rows (row order is the on-disk order). -/
structure DataFrame where
  cols : List String
  rows : List (List Cell)
deriving DecidableEq, Repr

/-- `df.empty` in pandas: true when either axis has length zero. -/
def DataFrame.empty (df : DataFrame) : Bool :=
  df.rows.isEmpty || df.cols.isEmpty

/-- The required columns of line 45: `{'uid', 'long', 'lat'}`. -/
def requiredColumns : List String := ["uid", "long", "lat"]

/-- Line 46: `required_columns.issubset(df.columns)`. -/
def DataFrame.hasRequired (df : DataFrame) : Bool :=
  requiredColumns.all fun c => df.cols.contains c

/-- Line 48: `df[required_columns].isnull().any().any()` — some row has a
null entry in one of the required columns.  (Column selection by label
set, as in pandas 1.x; a cell beyond the row's length also counts as
null, matching `read_csv` NaN padding of short rows.) -/
def DataFrame.hasNullRequired (df : DataFrame) : Bool :=
  df.rows.any fun r =>
    requiredColumns.any fun c => (r.getD (df.cols.indexOf c) none).isNone

/-- The three schema checks of lines 43-49 combined: a loadable dataset. -/
def validDF (df : DataFrame) : Bool :=
  !df.empty && df.hasRequired && !df.hasNullRequired

/-- Content of a file on disk: either a CSV that parses to a `DataFrame`,
or bytes that `pandas.read_csv` fails to parse. -/
inductive File where
  | csv (df : DataFrame)
  | raw (bytes : String)
deriving DecidableEq, Repr

/-- The filesystem: a partial map from paths to file contents. -/
abbrev FS := String → Option File

/-- Writing (creating or overwriting) one file. -/
def FS.write (fs : FS) (p : String) (f : File) : FS :=
  fun q => if q = p then some f else fs q

/-- The error taxonomy of the pipeline.  Each constructor corresponds to
one `raise` site of `full_deployment` (or, for `LengthMismatchError`, to
the `ValueError` that pandas itself raises at line 80 when the two
column Indexes have different lengths and are compared with `==`). -/
inductive Err where
  | NotFoundError                           -- line 35, FileNotFoundError
  | FormatError                             -- line 40, ValueError
  | SchemaError                             -- lines 44/47/49, ValueError
  | ValidationError (msg : String)          -- lines 54/58, ValueError
  | ExtractionError                         -- line 70, ValueError (empty VED result)
  | ExtractionExhaustedError (msg : String) -- line 75, RuntimeError, carries last decode error
  | CollabError (msg : String)              -- a non-decode collaborator exception, propagated raw
  | LengthMismatchError                     -- line 80, pandas ValueError on Index length mismatch
  | SchemaMismatchError                     -- line 81, ValueError
  | BackupError                             -- line 89, RuntimeError
  | PersistError                            -- line 97, RuntimeError
  | RecommendationError (msg : String)      -- line 110, RuntimeError
deriving DecidableEq, Repr

/-- Observable collaborator invocations, used to state the retry policy. -/
inductive Event where
  | ocrCall (attempt : Nat)
  | vedCall (attempt : Nat)
  | prCall
  | ccCall
deriving DecidableEq, Repr

/-- Opaque raw OCR output (`struk`). -/
abbrev Struk := String

/-- Result of the field extractor `ved`: the Python truthiness of the
returned mapping (line 69 `if not data`) and the frame
`pd.DataFrame(data)` it converts to (line 71). -/
structure VedData where
  isEmptyData : Bool
  df : DataFrame
deriving DecidableEq

/-- An exception raised by a collaborator call inside the `try` block:
either `json.JSONDecodeError` (caught and retried) or anything else. -/
inductive PyExc where
  | jsonDecode (msg : String)
  | other (msg : String)
deriving DecidableEq

/-- Outcome of one iteration of the `try` body (lines 67-72). -/
inductive TryErr where
  | decode (msg : String)   -- json.JSONDecodeError surfaced inside the try block
  | emptyData               -- the ValueError of line 70
  | collab (msg : String)   -- any other exception, propagated unchanged
deriving DecidableEq

abbrev ProductList := List String
abbrev RecResult := String
abbrev Model := Unit

/-- The world the pipeline runs in: the filesystem plus one oracle per
external collaborator.  The OCR and extraction oracles are indexed by
the attempt number, so that each retry is a fresh invocation whose
outcome may differ from the previous ones. -/
structure Env where
  fs : FS
  ocr : Nat → String → Except PyExc Struk
    -- `ocr_receipt(test_path, model)` on a given attempt
  ved : Nat → Struk → String → String → String → Except PyExc VedData
    -- `ved(struk, key_path, uid, email)` on a given attempt
  copyfileOk : Bool            -- whether `shutil.copyfile` succeeds (line 86)
  toCsvOk : Bool               -- whether `df.to_csv` succeeds (line 94)
  partialWrite : File          -- content left at the dataset path if `to_csv` fails midway
  pr : String → String → Except String ProductList
    -- `pr(dataset_path, uid)` (line 101)
  cc : String → String → ProductList → Int → Int → Except String RecResult
    -- `cc(dataset=..., uid=..., product_list=..., lon=..., lat=...)` (lines 102-108)

/-- Lines 34-49: existence check, `pd.read_csv`, and the three schema
checks, producing the loaded `DataFrame` or the first error raised. -/
def checkDataset (fs : FS) (dataset_path : String) : Except Err DataFrame :=
  match fs dataset_path with
  | none => .error .NotFoundError
  | some (.raw _) => .error .FormatError
  | some (.csv df) =>
    if df.empty then .error .SchemaError
    else if !df.hasRequired then .error .SchemaError
    else if df.hasNullRequired then .error .SchemaError
    else .ok df

/-!
## Email validation (lines 52-54)

The source checks `re.fullmatch(r"^\w+([\.-]?\w+)*@\w+([\.-]?\w+)*(\.\w{2,})+$", email)`.
We embed the regex as an AST with character classes and decide matching
with Brzozowski derivatives; `re.fullmatch` of a backtracking regex
without backreferences is exactly language membership.
`\w` is modelled as ASCII `[A-Za-z0-9_]`.
-/

/-- Regular expressions over characters, with character classes. -/
inductive Regex where
  | fail
  | eps
  | cls (p : Char → Bool)
  | cat (r1 r2 : Regex)
  | alt (r1 r2 : Regex)
  | star (r : Regex)

/-- Language membership for `Regex`. -/
inductive RMatch : Regex → List Char → Prop where
  | eps : RMatch .eps []
  | cls (p : Char → Bool) (c : Char) : p c = true → RMatch (.cls p) [c]
  | cat {r1 r2 : Regex} {u v : List Char} :
      RMatch r1 u → RMatch r2 v → RMatch (.cat r1 r2) (u ++ v)
  | altL {r1 r2 : Regex} {u : List Char} : RMatch r1 u → RMatch (.alt r1 r2) u
  | altR {r1 r2 : Regex} {u : List Char} : RMatch r2 u → RMatch (.alt r1 r2) u
  | starNil (r : Regex) : RMatch (.star r) []
  | starCons {r : Regex} {u v : List Char} :
      RMatch r u → RMatch (.star r) v → RMatch (.star r) (u ++ v)

/-- Does the regex accept the empty string? -/
def Regex.nullable : Regex → Bool
  | .fail => false
  | .eps => true
  | .cls _ => false
  | .cat r1 r2 => r1.nullable && r2.nullable
  | .alt r1 r2 => r1.nullable || r2.nullable
  | .star _ => true

/-- Brzozowski derivative. -/
def Regex.deriv : Regex → Char → Regex
  | .fail, _ => .fail
  | .eps, _ => .fail
  | .cls p, c => if p c then .eps else .fail
  | .cat r1 r2, c =>
    if r1.nullable then .alt (.cat (r1.deriv c) r2) (r2.deriv c)
    else .cat (r1.deriv c) r2
  | .alt r1 r2, c => .alt (r1.deriv c) (r2.deriv c)
  | .star r, c => .cat (r.deriv c) (.star r)

/-- Executable matcher. -/
def Regex.rmatch (r : Regex) : List Char → Bool
  | [] => r.nullable
  | c :: cs => (r.deriv c).rmatch cs

/-- `\w`: a word character. -/
def wordChar (c : Char) : Bool := c.isAlphanum || c == '_'

/-- `[\.-]`: a separator character. -/
def sepChar (c : Char) : Bool := c == '.' || c == '-'

/-- `\w+`. -/
def wplus : Regex := .cat (.cls wordChar) (.star (.cls wordChar))

/-- `[\.-]?\w+`. -/
def sepSeg : Regex := .cat (.alt (.cls sepChar) .eps) wplus

/-- `\w+([\.-]?\w+)*`: word segments joined by single separators. -/
def segs : Regex := .cat wplus (.star sepSeg)

/-- `\.\w{2,}`: a dot followed by a label of at least two word characters. -/
def tld : Regex := .cat (.cls fun c => c == '.') (.cat (.cls wordChar) wplus)

/-- `(\.\w{2,})+`. -/
def tldPart : Regex := .cat tld (.star tld)

/-- The full email regex `^\w+([\.-]?\w+)*@\w+([\.-]?\w+)*(\.\w{2,})+$`. -/
def emailRegex : Regex :=
  .cat segs (.cat (.cls fun c => c == '@') (.cat segs tldPart))

/-- Lines 52-53: `re.fullmatch(email_regex, email) is not None`. -/
def emailValid (email : String) : Bool := emailRegex.rmatch email.data

/-!
## The extraction retry loop (lines 63-77)
-/

/-- One execution of the `try` body (lines 67-72): run OCR, run the
field extractor, reject an empty result, convert to a frame.  Also
returns the collaborator invocations it performed. -/
def tryBody (env : Env) (test_path key_path uid email : String) (attempt : Nat) :
    Except TryErr DataFrame × List Event :=
  match env.ocr attempt test_path with
  | .error (.jsonDecode msg) => (.error (.decode msg), [.ocrCall attempt])
  | .error (.other msg) => (.error (.collab msg), [.ocrCall attempt])
  | .ok struk =>
    match env.ved attempt struk key_path uid email with
    | .error (.jsonDecode msg) => (.error (.decode msg), [.ocrCall attempt, .vedCall attempt])
    | .error (.other msg) => (.error (.collab msg), [.ocrCall attempt, .vedCall attempt])
    | .ok data =>
      if data.isEmptyData then (.error .emptyData, [.ocrCall attempt, .vedCall attempt])
      else (.ok data.df, [.ocrCall attempt, .vedCall attempt])

/-- Lines 64-77: `for attempt in range(max_retries + 1)` with
`max_retries = 3`.  `fuel` is the number of retries still allowed, so
the loop starts as `extractLoop env ... 0 3` and `fuel = 0` corresponds
to `attempt == max_retries`.  Only a `json.JSONDecodeError` is caught
and retried; an empty extraction result raises the `ValueError` of
line 70, and any other exception propagates unchanged. -/
def extractLoop (env : Env) (test_path key_path uid email : String)
    (attempt fuel : Nat) : Except Err DataFrame × List Event :=
  match tryBody env test_path key_path uid email attempt with
  | (.ok df, evs) => (.ok df, evs)
  | (.error .emptyData, evs) => (.error .ExtractionError, evs)
  | (.error (.collab msg), evs) => (.error (.CollabError msg), evs)
  | (.error (.decode msg), evs) =>
    match fuel with
    | 0 => (.error (.ExtractionExhaustedError msg), evs)
    | fuel' + 1 =>
      let rest := extractLoop env test_path key_path uid email (attempt + 1) fuel'
      (rest.1, evs ++ rest.2)

/-!
## Reconciliation, durable append and recommendations (lines 80-112)
-/

/-- The overall outcome of a run: the returned value or raised error,
the final filesystem, and the collaborator invocations performed. -/
structure RunOut where
  res : Except Err RecResult
  fs : FS
  events : List Event

/-- Lines 99-112: call the product recommender, then the proximity
recommender; wrap any failure as the `RuntimeError` of line 110. -/
def recommendStage (env : Env) (dataset_path uid : String) (lon lat : Int)
    (fs2 : FS) (evs : List Event) : RunOut :=
  match env.pr dataset_path uid with
  | .error msg => ⟨.error (.RecommendationError msg), fs2, evs ++ [.prCall]⟩
  | .ok plist =>
    match env.cc dataset_path uid plist lon lat with
    | .error msg => ⟨.error (.RecommendationError msg), fs2, evs ++ [.prCall, .ccCall]⟩
    | .ok r => ⟨.ok r, fs2, evs ++ [.prCall, .ccCall]⟩

/-- Lines 84-97: copy the dataset file to `<original>.backup`, then
append the extracted rows (`pd.concat`, `ignore_index=True`) and write
the result back to the original path. -/
def appendStage (env : Env) (dataset_path uid : String) (lon lat : Int)
    (df data : DataFrame) (evs : List Event) : RunOut :=
  if !env.copyfileOk then ⟨.error .BackupError, env.fs, evs⟩
  else
    let fs1 := FS.write env.fs (dataset_path ++ ".backup")
      ((env.fs dataset_path).getD (.raw ""))
    let newdf : DataFrame := ⟨df.cols, df.rows ++ data.rows⟩
    if !env.toCsvOk then
      ⟨.error .PersistError, FS.write fs1 dataset_path env.partialWrite, evs⟩
    else recommendStage env dataset_path uid lon lat
      (FS.write fs1 dataset_path (.csv newdf)) evs

/-- Lines 80-81: `if not all(df.columns == data.columns)`.  Comparing two
pandas Indexes of different lengths with `==` itself raises
`ValueError("Lengths must match to compare")`; with equal lengths the
elementwise comparison succeeds and the explicit `ValueError` of line 81
is raised when some position differs. -/
def reconcileStage (env : Env) (dataset_path uid : String) (lon lat : Int)
    (df data : DataFrame) (evs : List Event) : RunOut :=
  if df.cols.length ≠ data.cols.length then ⟨.error .LengthMismatchError, env.fs, evs⟩
  else if df.cols ≠ data.cols then ⟨.error .SchemaMismatchError, env.fs, evs⟩
  else appendStage env dataset_path uid lon lat df data evs

/-- The whole of `full_deployment` (lines 12-112), with the source's
argument order.  The model handle is `Option Model` so that the
`model is None` check of line 57 is expressible. -/
def full_deployment (env : Env)
    (key_path test_path dataset_path uid email : String)
    (model : Option Model) (lon lat : Int) : RunOut :=
  match checkDataset env.fs dataset_path with
  | .error e => ⟨.error e, env.fs, []⟩
  | .ok df =>
    if !emailValid email then
      ⟨.error (.ValidationError "Email is not valid."), env.fs, []⟩
    else if model.isNone then
      ⟨.error (.ValidationError "The model parameter is required but not provided."), env.fs, []⟩
    else
      match extractLoop env test_path key_path uid email 0 3 with
      | (.error e, evs) => ⟨.error e, env.fs, evs⟩
      | (.ok data, evs) => reconcileStage env dataset_path uid lon lat df data evs

/-!
## Auxiliary definitions used by the statements
-/

/-- The collaborator calls made by attempts `a, a+1, ..., a+j-1` when
every one of those attempts runs OCR and then the field extractor. -/
def attemptTraceFrom (a : Nat) : Nat → List Event
  | 0 => []
  | j + 1 => Event.ocrCall a :: Event.vedCall a :: attemptTraceFrom (a + 1) j

/-- A character that may occur in a matched email besides the `@`:
a word character or a separator. -/
def wsChar (c : Char) : Bool := wordChar c || sepChar c

/-- Every character class occurring in `r` implies `P`. -/
def onlyChars (P : Char → Bool) : Regex → Prop
  | .fail => True
  | .eps => True
  | .cls p => ∀ c, p c = true → P c = true
  | .cat r1 r2 => onlyChars P r1 ∧ onlyChars P r2
  | .alt r1 r2 => onlyChars P r1 ∧ onlyChars P r2
  | .star r => onlyChars P r

/-- No two adjacent characters are both separators (`.` or `-`). -/
def noTwoSeps : List Char → Bool
  | c1 :: c2 :: r => (!(sepChar c1 && sepChar c2)) && noTwoSeps (c2 :: r)
  | _ => true

/-- The malformed-email classes: missing `@`; an `@` whose domain part
(the segment after the last `@`) contains no dot, hence no `.tld` label;
or two consecutive separators somewhere. -/
def malformedEmail (s : String) : Prop :=
  '@' ∉ s.data ∨
  (∃ u v, s.data = u ++ '@' :: v ∧ '@' ∉ v ∧ '.' ∉ v) ∨
  noTwoSeps s.data = false

/-!
## Concrete fixtures for witnesses
-/

/-- A well-formed one-row dataset. -/
def dfW : DataFrame := ⟨["uid", "long", "lat"], [[some "u1", some "10", some "20"]]⟩

/-- A well-formed extracted record matching `dfW`'s schema. -/
def dataW : DataFrame := ⟨["uid", "long", "lat"], [[some "u2", some "30", some "40"]]⟩

/-- A happy-path environment: dataset on disk, all collaborators succeed. -/
def envW : Env where
  fs := fun p => if p = "d.csv" then some (.csv dfW) else none
  ocr := fun _ _ => .ok "s"
  ved := fun _ _ _ _ _ => .ok ⟨false, dataW⟩
  copyfileOk := true
  toCsvOk := true
  partialWrite := .raw "partial"
  pr := fun _ _ => .ok ["p"]
  cc := fun _ _ _ _ _ => .ok "rec"

/-- An extracted record with a different column count (2 columns). -/
def dataShort : DataFrame := ⟨["uid", "long"], [[some "u2", some "30"]]⟩

/-- An extracted record with the same columns in a different order. -/
def dataPerm : DataFrame := ⟨["uid", "lat", "long"], [[some "u2", some "30", some "40"]]⟩

/-- `envW` with the extractor returning a record of the wrong width. -/
def envShort : Env := { envW with ved := fun _ _ _ _ _ => .ok ⟨false, dataShort⟩ }

/-- `envW` with the extractor returning permuted columns. -/
def envPerm : Env := { envW with ved := fun _ _ _ _ _ => .ok ⟨false, dataPerm⟩ }

/-- An extractor that raises a JSON decode error on attempts 0-2 and
succeeds on attempt 3. -/
def vedRetry : Nat → Struk → String → String → String → Except PyExc VedData :=
  fun n _ _ _ _ =>
    if n < 3 then .error (.jsonDecode (toString n)) else .ok ⟨false, dataW⟩

/-- `envW` with the retrying extractor. -/
def envRetry : Env := { envW with ved := vedRetry }

/-- `envW` with an extractor that always raises a JSON decode error. -/
def envDecodeFail : Env :=
  { envW with ved := fun _ _ _ _ _ => .error (.jsonDecode "bad") }

/-- `envW` with an extractor that returns an empty mapping. -/
def envEmptyVed : Env := { envW with ved := fun _ _ _ _ _ => .ok ⟨true, dataW⟩ }

/-- `envW` with a failing `shutil.copyfile`. -/
def envBackupFail : Env := { envW with copyfileOk := false }

/-- `envW` with a failing product recommender. -/
def envPrFail : Env := { envW with pr := fun _ _ => .error "boom" }

/-!
## Basic lemmas: filesystem, dataset loading
-/

/-- The backup path is a different path from the dataset path. -/
theorem backup_path_ne (s : String) : s ++ ".backup" ≠ s := by
  intro h
  have h2 := congrArg String.length h
  rw [String.length_append] at h2
  have h7 : ".backup".length = 7 := rfl
  omega

theorem fs_write_self (fs : FS) (p : String) (f : File) :
    FS.write fs p f p = some f := by
  simp [FS.write]

theorem fs_write_other (fs : FS) {p q : String} (f : File) (h : q ≠ p) :
    FS.write fs p f q = fs q := by
  simp [FS.write, h]

theorem validDF_parts {df : DataFrame} (h : validDF df = true) :
    df.empty = false ∧ df.hasRequired = true ∧ df.hasNullRequired = false := by
  simp only [validDF, Bool.and_eq_true, Bool.not_eq_true'] at h
  exact ⟨h.1.1, h.1.2, h.2⟩

theorem checkDataset_ok_of {fs : FS} {p : String} {df : DataFrame}
    (hfs : fs p = some (.csv df)) (hv : validDF df = true) :
    checkDataset fs p = .ok df := by
  obtain ⟨h1, h2, h3⟩ := validDF_parts hv
  simp [checkDataset, hfs, h1, h2, h3]

theorem checkDataset_ok_inv {fs : FS} {p : String} {df : DataFrame}
    (h : checkDataset fs p = .ok df) :
    fs p = some (.csv df) ∧ validDF df = true := by
  rcases hfs : fs p with _ | f
  · simp [checkDataset, hfs] at h
  · rcases f with df' | b
    · by_cases h1 : df'.empty
      · simp [checkDataset, hfs, h1] at h
      · by_cases h2 : df'.hasRequired
        · by_cases h3 : df'.hasNullRequired
          · simp [checkDataset, hfs, h1, h2, h3] at h
          · have : df' = df := by
              simpa [checkDataset, hfs, h1, h2, h3] using h
            subst this
            refine ⟨rfl, ?_⟩
            simp only [validDF, Bool.and_eq_true, Bool.not_eq_true']
            exact ⟨⟨by simpa using h1, by simpa using h2⟩, by simpa using h3⟩
        · simp [checkDataset, hfs, h1, h2] at h
    · simp [checkDataset, hfs] at h

theorem checkDataset_none {fs : FS} {p : String} (hfs : fs p = none) :
    checkDataset fs p = .error .NotFoundError := by
  simp [checkDataset, hfs]

theorem checkDataset_raw {fs : FS} {p : String} {b : String}
    (hfs : fs p = some (.raw b)) :
    checkDataset fs p = .error .FormatError := by
  simp [checkDataset, hfs]

theorem checkDataset_invalid {fs : FS} {p : String} {df : DataFrame}
    (hfs : fs p = some (.csv df)) (hv : validDF df = false) :
    checkDataset fs p = .error .SchemaError := by
  by_cases h1 : df.empty
  · simp [checkDataset, hfs, h1]
  · by_cases h2 : df.hasRequired
    · by_cases h3 : df.hasNullRequired
      · simp [checkDataset, hfs, h1, h2, h3]
      · exfalso
        have : validDF df = true := by
          simp only [validDF, Bool.and_eq_true, Bool.not_eq_true']
          exact ⟨⟨by simpa using h1, by simpa using h2⟩, by simpa using h3⟩
        rw [this] at hv
        cases hv
    · simp [checkDataset, hfs, h1, h2]

/-!
## Lemmas about the extraction retry loop
-/

theorem tryBody_ok {env : Env} {tp kp u e st : String} {a : Nat} {d : VedData}
    (h1 : env.ocr a tp = .ok st) (h2 : env.ved a st kp u e = .ok d)
    (h3 : d.isEmptyData = false) :
    tryBody env tp kp u e a = (.ok d.df, [.ocrCall a, .vedCall a]) := by
  simp [tryBody, h1, h2, h3]

theorem tryBody_decode {env : Env} {tp kp u e st msg : String} {a : Nat}
    (h1 : env.ocr a tp = .ok st)
    (h2 : env.ved a st kp u e = .error (.jsonDecode msg)) :
    tryBody env tp kp u e a = (.error (.decode msg), [.ocrCall a, .vedCall a]) := by
  simp [tryBody, h1, h2]

theorem tryBody_collab {env : Env} {tp kp u e st msg : String} {a : Nat}
    (h1 : env.ocr a tp = .ok st)
    (h2 : env.ved a st kp u e = .error (.other msg)) :
    tryBody env tp kp u e a = (.error (.collab msg), [.ocrCall a, .vedCall a]) := by
  simp [tryBody, h1, h2]

theorem tryBody_empty {env : Env} {tp kp u e st : String} {a : Nat} {d : VedData}
    (h1 : env.ocr a tp = .ok st) (h2 : env.ved a st kp u e = .ok d)
    (h3 : d.isEmptyData = true) :
    tryBody env tp kp u e a = (.error .emptyData, [.ocrCall a, .vedCall a]) := by
  simp [tryBody, h1, h2, h3]

theorem extractLoop_of_ok {env : Env} {tp kp u e : String} {a f : Nat}
    {d : DataFrame} {evs : List Event}
    (h : tryBody env tp kp u e a = (.ok d, evs)) :
    extractLoop env tp kp u e a f = (.ok d, evs) := by
  unfold extractLoop
  rw [h]

theorem extractLoop_of_empty {env : Env} {tp kp u e : String} {a f : Nat}
    {evs : List Event}
    (h : tryBody env tp kp u e a = (.error .emptyData, evs)) :
    extractLoop env tp kp u e a f = (.error .ExtractionError, evs) := by
  unfold extractLoop
  rw [h]

theorem extractLoop_of_collab {env : Env} {tp kp u e msg : String} {a f : Nat}
    {evs : List Event}
    (h : tryBody env tp kp u e a = (.error (.collab msg), evs)) :
    extractLoop env tp kp u e a f = (.error (.CollabError msg), evs) := by
  unfold extractLoop
  rw [h]

theorem extractLoop_of_decode_zero {env : Env} {tp kp u e msg : String} {a : Nat}
    {evs : List Event}
    (h : tryBody env tp kp u e a = (.error (.decode msg), evs)) :
    extractLoop env tp kp u e a 0 = (.error (.ExtractionExhaustedError msg), evs) := by
  unfold extractLoop
  rw [h]

theorem extractLoop_of_decode_succ {env : Env} {tp kp u e msg : String} {a f : Nat}
    {evs : List Event}
    (h : tryBody env tp kp u e a = (.error (.decode msg), evs)) :
    extractLoop env tp kp u e a (f + 1) =
      ((extractLoop env tp kp u e (a + 1) f).1,
       evs ++ (extractLoop env tp kp u e (a + 1) f).2) := by
  conv_lhs => unfold extractLoop
  rw [h]

/-- Skipping `j` consecutive decode-failing attempts: the loop behaves as
if started at attempt `a + j` with `j` fewer retries, with the traces of
the failed attempts prepended. -/
theorem extractLoop_shift (env : Env) (tp kp u e : String) (m : Nat → String) :
    ∀ (j a f : Nat), j ≤ f →
    (∀ n, n < j → tryBody env tp kp u e (a + n) =
        (.error (.decode (m (a + n))), [.ocrCall (a + n), .vedCall (a + n)])) →
    extractLoop env tp kp u e a f =
      ((extractLoop env tp kp u e (a + j) (f - j)).1,
       attemptTraceFrom a j ++ (extractLoop env tp kp u e (a + j) (f - j)).2) := by
  intro j
  induction j with
  | zero =>
    intro a f _ _
    simp [attemptTraceFrom]
  | succ j ih =>
    intro a f hjf hfail
    cases f with
    | zero => exact absurd hjf (by omega)
    | succ f' =>
      have h0 : tryBody env tp kp u e a =
          (.error (.decode (m a)), [.ocrCall a, .vedCall a]) := by
        have := hfail 0 (Nat.succ_pos j)
        simpa using this
      rw [extractLoop_of_decode_succ h0]
      have ih' := ih (a + 1) f' (by omega) (by
        intro n hn
        have := hfail (n + 1) (Nat.succ_lt_succ hn)
        have harith : a + (n + 1) = a + 1 + n := by omega
        rwa [harith] at this)
      rw [ih']
      have harith2 : a + 1 + j = a + (j + 1) := by omega
      have harith3 : f' - j = f' + 1 - (j + 1) := by omega
      rw [← harith2, ← harith3]
      simp only [attemptTraceFrom, List.cons_append, List.append_assoc, List.nil_append]

/-- Every error produced by the retry loop is one of the loop's own
error forms. -/
theorem extractLoop_err_shape (env : Env) (tp kp u e : String) :
    ∀ (f a : Nat) (err : Err) (evs : List Event),
    extractLoop env tp kp u e a f = (.error err, evs) →
    err = .ExtractionError ∨ (∃ msg, err = .CollabError msg) ∨
      (∃ msg, err = .ExtractionExhaustedError msg) := by
  intro f
  induction f with
  | zero =>
    intro a err evs h
    rcases htb : tryBody env tp kp u e a with ⟨r, evs'⟩
    rcases r with te | d
    · rcases te with msg | _ | msg
      · rw [extractLoop_of_decode_zero htb] at h
        cases h
        exact Or.inr (Or.inr ⟨msg, rfl⟩)
      · rw [extractLoop_of_empty htb] at h
        cases h
        exact Or.inl rfl
      · rw [extractLoop_of_collab htb] at h
        cases h
        exact Or.inr (Or.inl ⟨msg, rfl⟩)
    · rw [extractLoop_of_ok htb] at h
      cases h
  | succ f ih =>
    intro a err evs h
    rcases htb : tryBody env tp kp u e a with ⟨r, evs'⟩
    rcases r with te | d
    · rcases te with msg | _ | msg
      · rw [extractLoop_of_decode_succ htb] at h
        rcases hrest : extractLoop env tp kp u e (a + 1) f with ⟨r', evs''⟩
        rw [hrest] at h
        simp only [Prod.mk.injEq] at h
        obtain ⟨h1, h2⟩ := h
        subst h1
        exact ih (a + 1) err evs'' hrest
      · rw [extractLoop_of_empty htb] at h
        cases h
        exact Or.inl rfl
      · rw [extractLoop_of_collab htb] at h
        cases h
        exact Or.inr (Or.inl ⟨msg, rfl⟩)
    · rw [extractLoop_of_ok htb] at h
      cases h

/-- The one iteration of the try body calls OCR, and then possibly the
extractor, on its own attempt index only. -/
theorem tryBody_ocr_decode {env : Env} {tp kp u e msg : String} {a : Nat}
    (h : env.ocr a tp = .error (.jsonDecode msg)) :
    tryBody env tp kp u e a = (.error (.decode msg), [.ocrCall a]) := by
  simp [tryBody, h]

theorem tryBody_ocr_other {env : Env} {tp kp u e msg : String} {a : Nat}
    (h : env.ocr a tp = .error (.other msg)) :
    tryBody env tp kp u e a = (.error (.collab msg), [.ocrCall a]) := by
  simp [tryBody, h]

theorem tryBody_events (env : Env) (tp kp u e : String) (a : Nat) :
    (tryBody env tp kp u e a).2 = [.ocrCall a] ∨
    (tryBody env tp kp u e a).2 = [.ocrCall a, .vedCall a] := by
  rcases ho : env.ocr a tp with exc | st
  · rcases exc with msg | msg
    · rw [tryBody_ocr_decode ho]
      exact Or.inl rfl
    · rw [tryBody_ocr_other ho]
      exact Or.inl rfl
  · rcases hv : env.ved a st kp u e with exc | d
    · rcases exc with msg | msg
      · rw [tryBody_decode ho hv]
        exact Or.inr rfl
      · rw [tryBody_collab ho hv]
        exact Or.inr rfl
    · by_cases hd : d.isEmptyData
      · rw [tryBody_empty ho hv hd]
        exact Or.inr rfl
      · rw [tryBody_ok ho hv (by simpa using hd)]
        exact Or.inr rfl

theorem event_shape_of_mem {a : Nat} {ev : Event} {evs : List Event}
    (hevs : evs = [Event.ocrCall a] ∨ evs = [Event.ocrCall a, Event.vedCall a])
    (hm : ev ∈ evs) : (∃ n, ev = .ocrCall n) ∨ (∃ n, ev = .vedCall n) := by
  rcases hevs with h | h
  · subst h
    simp at hm
    exact Or.inl ⟨a, hm⟩
  · subst h
    simp at hm
    rcases hm with hm | hm
    · exact Or.inl ⟨a, hm⟩
    · exact Or.inr ⟨a, hm⟩

/-- Every event emitted by the retry loop is an OCR or extractor call. -/
theorem extractLoop_events_shape (env : Env) (tp kp u e : String) :
    ∀ (f a : Nat) (ev : Event), ev ∈ (extractLoop env tp kp u e a f).2 →
    (∃ n, ev = .ocrCall n) ∨ (∃ n, ev = .vedCall n) := by
  intro f
  induction f with
  | zero =>
    intro a ev hmem
    rcases htb : tryBody env tp kp u e a with ⟨r, evs'⟩
    have hevs' : evs' = [Event.ocrCall a] ∨ evs' = [Event.ocrCall a, Event.vedCall a] := by
      have := tryBody_events env tp kp u e a
      rw [htb] at this
      exact this
    rcases r with te | d
    · rcases te with msg | _ | msg
      · rw [extractLoop_of_decode_zero htb] at hmem
        exact event_shape_of_mem hevs' hmem
      · rw [extractLoop_of_empty htb] at hmem
        exact event_shape_of_mem hevs' hmem
      · rw [extractLoop_of_collab htb] at hmem
        exact event_shape_of_mem hevs' hmem
    · rw [extractLoop_of_ok htb] at hmem
      exact event_shape_of_mem hevs' hmem
  | succ f ih =>
    intro a ev hmem
    rcases htb : tryBody env tp kp u e a with ⟨r, evs'⟩
    have hevs' : evs' = [Event.ocrCall a] ∨ evs' = [Event.ocrCall a, Event.vedCall a] := by
      have := tryBody_events env tp kp u e a
      rw [htb] at this
      exact this
    rcases r with te | d
    · rcases te with msg | _ | msg
      · rw [extractLoop_of_decode_succ htb] at hmem
        rcases List.mem_append.mp hmem with hmem' | hmem'
        · exact event_shape_of_mem hevs' hmem'
        · exact ih (a + 1) ev hmem'
      · rw [extractLoop_of_empty htb] at hmem
        exact event_shape_of_mem hevs' hmem
      · rw [extractLoop_of_collab htb] at hmem
        exact event_shape_of_mem hevs' hmem
    · rw [extractLoop_of_ok htb] at hmem
      exact event_shape_of_mem hevs' hmem

/-- The recommendation stage never touches the filesystem it is given. -/
theorem recommendStage_fs (env : Env) (dp uid : String) (lon lat : Int)
    (fs2 : FS) (evs : List Event) :
    (recommendStage env dp uid lon lat fs2 evs).fs = fs2 := by
  unfold recommendStage
  split
  · rfl
  · split <;> rfl

/-!
## Evaluation lemmas for the run stages
-/

theorem recommendStage_pr_err {env : Env} {dp uid msg : String} {lon lat : Int}
    {fs2 : FS} {evs : List Event} (h : env.pr dp uid = .error msg) :
    recommendStage env dp uid lon lat fs2 evs =
      ⟨.error (.RecommendationError msg), fs2, evs ++ [.prCall]⟩ := by
  unfold recommendStage
  rw [h]

theorem recommendStage_cc_err {env : Env} {dp uid msg : String} {lon lat : Int}
    {fs2 : FS} {evs : List Event} {plist : ProductList}
    (hp : env.pr dp uid = .ok plist) (hc : env.cc dp uid plist lon lat = .error msg) :
    recommendStage env dp uid lon lat fs2 evs =
      ⟨.error (.RecommendationError msg), fs2, evs ++ [.prCall, .ccCall]⟩ := by
  simp [recommendStage, hp, hc]

theorem recommendStage_ok {env : Env} {dp uid : String} {lon lat : Int}
    {fs2 : FS} {evs : List Event} {plist : ProductList} {r : RecResult}
    (hp : env.pr dp uid = .ok plist) (hc : env.cc dp uid plist lon lat = .ok r) :
    recommendStage env dp uid lon lat fs2 evs = ⟨.ok r, fs2, evs ++ [.prCall, .ccCall]⟩ := by
  simp [recommendStage, hp, hc]

theorem appendStage_backup_fail {env : Env} {dp uid : String} {lon lat : Int}
    {df data : DataFrame} {evs : List Event} (h : env.copyfileOk = false) :
    appendStage env dp uid lon lat df data evs = ⟨.error .BackupError, env.fs, evs⟩ := by
  simp [appendStage, h]

theorem appendStage_persist_fail {env : Env} {dp uid : String} {lon lat : Int}
    {df data : DataFrame} {evs : List Event}
    (hc : env.copyfileOk = true) (hw : env.toCsvOk = false) :
    appendStage env dp uid lon lat df data evs =
      ⟨.error .PersistError,
       FS.write (FS.write env.fs (dp ++ ".backup") ((env.fs dp).getD (.raw "")))
         dp env.partialWrite, evs⟩ := by
  simp [appendStage, hc, hw]

theorem appendStage_ok {env : Env} {dp uid : String} {lon lat : Int}
    {df data : DataFrame} {evs : List Event}
    (hc : env.copyfileOk = true) (hw : env.toCsvOk = true) :
    appendStage env dp uid lon lat df data evs =
      recommendStage env dp uid lon lat
        (FS.write (FS.write env.fs (dp ++ ".backup") ((env.fs dp).getD (.raw "")))
          dp (.csv ⟨df.cols, df.rows ++ data.rows⟩)) evs := by
  simp [appendStage, hc, hw]

theorem reconcileStage_len_ne {env : Env} {dp uid : String} {lon lat : Int}
    {df data : DataFrame} {evs : List Event}
    (h : df.cols.length ≠ data.cols.length) :
    reconcileStage env dp uid lon lat df data evs =
      ⟨.error .LengthMismatchError, env.fs, evs⟩ := by
  simp [reconcileStage, h]

theorem reconcileStage_cols_ne {env : Env} {dp uid : String} {lon lat : Int}
    {df data : DataFrame} {evs : List Event}
    (hlen : df.cols.length = data.cols.length) (hne : df.cols ≠ data.cols) :
    reconcileStage env dp uid lon lat df data evs =
      ⟨.error .SchemaMismatchError, env.fs, evs⟩ := by
  simp [reconcileStage, hlen, hne]

theorem reconcileStage_eq {env : Env} {dp uid : String} {lon lat : Int}
    {df data : DataFrame} {evs : List Event} (h : df.cols = data.cols) :
    reconcileStage env dp uid lon lat df data evs =
      appendStage env dp uid lon lat df data evs := by
  simp [reconcileStage, h]

theorem full_deployment_load_err {env : Env}
    {kp tp dp uid email : String} {model : Option Model} {lon lat : Int} {e : Err}
    (h : checkDataset env.fs dp = .error e) :
    full_deployment env kp tp dp uid email model lon lat = ⟨.error e, env.fs, []⟩ := by
  unfold full_deployment
  rw [h]

theorem full_deployment_bad_email {env : Env}
    {kp tp dp uid email : String} {model : Option Model} {lon lat : Int} {df : DataFrame}
    (hcd : checkDataset env.fs dp = .ok df) (hem : emailValid email = false) :
    full_deployment env kp tp dp uid email model lon lat =
      ⟨.error (.ValidationError "Email is not valid."), env.fs, []⟩ := by
  unfold full_deployment
  rw [hcd]
  simp [hem]

theorem full_deployment_no_model {env : Env}
    {kp tp dp uid email : String} {lon lat : Int} {df : DataFrame}
    (hcd : checkDataset env.fs dp = .ok df) (hem : emailValid email = true) :
    full_deployment env kp tp dp uid email none lon lat =
      ⟨.error (.ValidationError "The model parameter is required but not provided."),
       env.fs, []⟩ := by
  unfold full_deployment
  rw [hcd]
  simp [hem]

theorem full_deployment_extract_err {env : Env}
    {kp tp dp uid email : String} {mh : Model} {lon lat : Int} {df : DataFrame}
    {e : Err} {evs : List Event}
    (hcd : checkDataset env.fs dp = .ok df) (hem : emailValid email = true)
    (hx : extractLoop env tp kp uid email 0 3 = (.error e, evs)) :
    full_deployment env kp tp dp uid email (some mh) lon lat =
      ⟨.error e, env.fs, evs⟩ := by
  unfold full_deployment
  rw [hcd]
  simp [hem, hx]

theorem full_deployment_extract_ok {env : Env}
    {kp tp dp uid email : String} {mh : Model} {lon lat : Int} {df data : DataFrame}
    {evs : List Event}
    (hcd : checkDataset env.fs dp = .ok df) (hem : emailValid email = true)
    (hx : extractLoop env tp kp uid email 0 3 = (.ok data, evs)) :
    full_deployment env kp tp dp uid email (some mh) lon lat =
      reconcileStage env dp uid lon lat df data evs := by
  unfold full_deployment
  rw [hcd]
  simp [hem, hx]

/-!
## Soundness of the derivative matcher
-/

theorem nullable_sound : ∀ r : Regex, r.nullable = true → RMatch r [] := by
  intro r
  induction r with
  | fail => intro h; cases h
  | eps => intro _; exact RMatch.eps
  | cls p => intro h; cases h
  | cat r1 r2 ih1 ih2 =>
    intro h
    simp only [Regex.nullable, Bool.and_eq_true] at h
    have := RMatch.cat (ih1 h.1) (ih2 h.2)
    simpa using this
  | alt r1 r2 ih1 ih2 =>
    intro h
    simp only [Regex.nullable, Bool.or_eq_true] at h
    rcases h with h | h
    · exact RMatch.altL (ih1 h)
    · exact RMatch.altR (ih2 h)
  | star r ih =>
    intro _
    exact RMatch.starNil r

theorem deriv_sound : ∀ (r : Regex) (c : Char) (cs : List Char),
    RMatch (r.deriv c) cs → RMatch r (c :: cs) := by
  intro r
  induction r with
  | fail =>
    intro c cs h
    simp only [Regex.deriv] at h
    cases h
  | eps =>
    intro c cs h
    simp only [Regex.deriv] at h
    cases h
  | cls p =>
    intro c cs h
    simp only [Regex.deriv] at h
    cases hpc : p c with
    | false => rw [hpc] at h; simp at h; cases h
    | true => rw [hpc] at h; simp at h; cases h; exact RMatch.cls p c hpc
  | cat r1 r2 ih1 ih2 =>
    intro c cs h
    simp only [Regex.deriv] at h
    cases hn : r1.nullable with
    | true =>
      rw [hn] at h
      simp at h
      cases h with
      | altL h' =>
        cases h' with
        | cat hu hv =>
          have := RMatch.cat (ih1 _ _ hu) hv
          simpa using this
      | altR h' =>
        have := RMatch.cat (nullable_sound r1 hn) (ih2 _ _ h')
        simpa using this
    | false =>
      rw [hn] at h
      simp at h
      cases h with
      | cat hu hv =>
        have := RMatch.cat (ih1 _ _ hu) hv
        simpa using this
  | alt r1 r2 ih1 ih2 =>
    intro c cs h
    simp only [Regex.deriv] at h
    cases h with
    | altL h' => exact RMatch.altL (ih1 _ _ h')
    | altR h' => exact RMatch.altR (ih2 _ _ h')
  | star r ih =>
    intro c cs h
    simp only [Regex.deriv] at h
    cases h with
    | cat hu hv =>
      have := RMatch.starCons (ih _ _ hu) hv
      simpa using this

theorem rmatch_sound : ∀ (cs : List Char) (r : Regex),
    r.rmatch cs = true → RMatch r cs := by
  intro cs
  induction cs with
  | nil =>
    intro r h
    simp only [Regex.rmatch] at h
    exact nullable_sound r h
  | cons c cs ih =>
    intro r h
    simp only [Regex.rmatch] at h
    exact deriv_sound r c cs (ih _ h)

/-!
## Invariants of the email language
-/

theorem rmatch_onlyChars {P : Char → Bool} :
    ∀ {r : Regex} {cs : List Char}, RMatch r cs → onlyChars P r →
      ∀ c ∈ cs, P c = true := by
  intro r cs h
  induction h with
  | eps =>
    intro _ c hc
    cases hc
  | cls p c hp =>
    intro ho c' hc'
    simp at hc'
    subst hc'
    exact ho _ hp
  | cat h1 h2 ih1 ih2 =>
    intro ho c hc
    rcases List.mem_append.mp hc with hm | hm
    · exact ih1 ho.1 _ hm
    · exact ih2 ho.2 _ hm
  | altL h ih =>
    intro ho c hc
    exact ih ho.1 _ hc
  | altR h ih =>
    intro ho c hc
    exact ih ho.2 _ hc
  | starNil r =>
    intro _ c hc
    cases hc
  | starCons h1 h2 ih1 ih2 =>
    intro ho c hc
    rcases List.mem_append.mp hc with hm | hm
    · exact ih1 ho _ hm
    · exact ih2 ho _ hm

theorem wordChar_ws {c : Char} (h : wordChar c = true) : wsChar c = true := by
  simp [wsChar, h]

theorem sepChar_ws {c : Char} (h : sepChar c = true) : wsChar c = true := by
  simp [wsChar, h]

theorem sepChar_elim {c : Char} (h : sepChar c = true) : c = '.' ∨ c = '-' := by
  simp only [sepChar, Bool.or_eq_true, beq_iff_eq] at h
  exact h

theorem wordChar_not_sep {c : Char} (h : wordChar c = true) : sepChar c = false := by
  by_contra h'
  rcases sepChar_elim (by simpa using h') with rfl | rfl
  · exact absurd h (by decide)
  · exact absurd h (by decide)

theorem onlyChars_wplus : onlyChars wsChar wplus :=
  ⟨fun _ h => wordChar_ws h, fun _ h => wordChar_ws h⟩

theorem onlyChars_segs : onlyChars wsChar segs :=
  ⟨⟨fun _ h => wordChar_ws h, fun _ h => wordChar_ws h⟩,
   ⟨fun _ h => sepChar_ws h, trivial⟩,
   fun _ h => wordChar_ws h, fun _ h => wordChar_ws h⟩

theorem dotChar_ws {c : Char} (h : (c == '.') = true) : wsChar c = true := by
  have : c = '.' := by simpa using h
  subst this
  decide

theorem onlyChars_tldPart : onlyChars wsChar tldPart :=
  ⟨⟨fun _ h => dotChar_ws h,
    fun _ h => wordChar_ws h, fun _ h => wordChar_ws h, fun _ h => wordChar_ws h⟩,
   fun _ h => dotChar_ws h,
   fun _ h => wordChar_ws h, fun _ h => wordChar_ws h, fun _ h => wordChar_ws h⟩

/-- Structure of a matched email: a local part, the single `@`, a domain
part and the dot-label tail. -/
theorem email_shape {cs : List Char} (h : RMatch emailRegex cs) :
    ∃ u d t, cs = u ++ '@' :: (d ++ t) ∧
      RMatch segs u ∧ RMatch segs d ∧ RMatch tldPart t := by
  unfold emailRegex at h
  cases h with
  | cat hu hrest =>
    cases hrest with
    | cat hat hdt =>
      cases hat with
      | cls p c hc =>
        cases hdt with
        | cat hd ht =>
          have hc' : c = '@' := by simpa using hc
          subst hc'
          exact ⟨_, _, _, by simp, hu, hd, ht⟩

theorem tldPart_has_dot {t : List Char} (h : RMatch tldPart t) : '.' ∈ t := by
  unfold tldPart at h
  cases h with
  | cat h1 h2 =>
    unfold tld at h1
    cases h1 with
    | cat hdot hrest =>
      cases hdot with
      | cls p c hc =>
        have hc' : c = '.' := by simpa using hc
        subst hc'
        simp

/-- A matched email splits as `u ++ '@' :: v` with no `@` on either side
and a dot in the domain side. -/
theorem email_split {cs : List Char} (h : RMatch emailRegex cs) :
    ∃ u v, cs = u ++ '@' :: v ∧ '@' ∉ u ∧ '@' ∉ v ∧ '.' ∈ v := by
  obtain ⟨u, d, t, hcs, hu, hd, ht⟩ := email_shape h
  refine ⟨u, d ++ t, hcs, ?_, ?_, ?_⟩
  · intro hmem
    exact absurd (rmatch_onlyChars hu onlyChars_segs '@' hmem) (by decide)
  · intro hmem
    rcases List.mem_append.mp hmem with hm | hm
    · exact absurd (rmatch_onlyChars hd onlyChars_segs '@' hm) (by decide)
    · exact absurd (rmatch_onlyChars ht onlyChars_tldPart '@' hm) (by decide)
  · exact List.mem_append.mpr (Or.inr (tldPart_has_dot ht))

theorem emailValid_has_at {s : String} (h : emailValid s = true) : '@' ∈ s.data := by
  obtain ⟨u, v, hcs, _, _, _⟩ :=
    email_split (rmatch_sound s.data emailRegex (by simpa [emailValid] using h))
  rw [hcs]
  simp

/-- A string with no `@` is rejected by the email validator. -/
theorem missing_at_invalid {s : String} (h : '@' ∉ s.data) : emailValid s = false := by
  cases hv : emailValid s with
  | false => rfl
  | true => exact absurd (emailValid_has_at hv) h

/-- Splitting a list at an `@` is unique when the reference split has no
`@` in either part and the candidate split none in its tail. -/
theorem split_at_unique : ∀ (u u' v v' : List Char),
    u ++ '@' :: v = u' ++ '@' :: v' → '@' ∉ v → '@' ∉ u' → '@' ∉ v' →
    u = u' ∧ v = v' := by
  intro u
  induction u with
  | nil =>
    intro u' v v' heq hv hu' hv'
    cases u' with
    | nil =>
      simp only [List.nil_append, List.cons.injEq] at heq
      exact ⟨rfl, heq.2⟩
    | cons c u'' =>
      simp only [List.nil_append, List.cons_append, List.cons.injEq] at heq
      obtain ⟨h1, h2⟩ := heq
      exfalso
      apply hv
      rw [h2]
      simp
  | cons c u ih =>
    intro u' v v' heq hv hu' hv'
    cases u' with
    | nil =>
      simp only [List.cons_append, List.nil_append, List.cons.injEq] at heq
      obtain ⟨h1, h2⟩ := heq
      exfalso
      apply hv'
      rw [← h2]
      simp
    | cons c' u'' =>
      simp only [List.cons_append, List.cons.injEq] at heq
      obtain ⟨h1, h2⟩ := heq
      subst h1
      have htail := ih u'' v v' h2 hv
        (fun hm => hu' (List.mem_cons_of_mem _ hm)) hv'
      exact ⟨by rw [htail.1], htail.2⟩

/-- An email whose domain part (after the last `@`) has no dot is
rejected. -/
theorem missing_domain_invalid {s : String} {u v : List Char}
    (hsplit : s.data = u ++ '@' :: v) (hv_at : '@' ∉ v) (hv_dot : '.' ∉ v) :
    emailValid s = false := by
  cases hv : emailValid s with
  | false => rfl
  | true =>
    exfalso
    obtain ⟨u', v', hcs, hu', hv'at, hdot⟩ :=
      email_split (rmatch_sound s.data emailRegex (by simpa [emailValid] using hv))
    rw [hsplit] at hcs
    obtain ⟨_, hvv⟩ := split_at_unique u u' v v' hcs hv_at hu' hv'at
    subst hvv
    exact hv_dot hdot

/-!
## No consecutive separators in the email language
-/

theorem mem_of_getLast? {l : List Char} {c : Char} (h : l.getLast? = some c) :
    c ∈ l := by
  obtain ⟨hne, heq⟩ := List.mem_getLast?_eq_getLast (Option.mem_def.mpr h)
  exact heq ▸ List.getLast_mem hne

theorem noTwoSeps_cons_not_sep {c : Char} (h : sepChar c = false) (v : List Char) :
    noTwoSeps (c :: v) = noTwoSeps v := by
  cases v with
  | nil => rfl
  | cons c2 r => simp [noTwoSeps, h]

theorem noTwoSeps_of_all_word {cs : List Char}
    (h : ∀ c ∈ cs, wordChar c = true) : noTwoSeps cs = true := by
  induction cs with
  | nil => rfl
  | cons c v ih =>
    rw [noTwoSeps_cons_not_sep (wordChar_not_sep (h c (List.mem_cons_self c v)))]
    exact ih fun c' hc' => h c' (List.mem_cons_of_mem _ hc')

theorem noTwoSeps_cons_all_word {c0 : Char} {rest : List Char}
    (h : ∀ c ∈ rest, wordChar c = true) : noTwoSeps (c0 :: rest) = true := by
  cases rest with
  | nil => rfl
  | cons c1 r =>
    simp [noTwoSeps, wordChar_not_sep (h c1 (List.mem_cons_self c1 r)),
      noTwoSeps_of_all_word h]

theorem noTwoSeps_append {u v : List Char}
    (hu : noTwoSeps u = true) (hv : noTwoSeps v = true)
    (hb : ∀ c, u.getLast? = some c → sepChar c = false) :
    noTwoSeps (u ++ v) = true := by
  induction u with
  | nil => simpa using hv
  | cons c u ih =>
    cases u with
    | nil =>
      rw [List.singleton_append, noTwoSeps_cons_not_sep (hb c rfl)]
      exact hv
    | cons c2 u' =>
      simp only [noTwoSeps, Bool.and_eq_true] at hu
      have hb2 : ∀ c', (c2 :: u').getLast? = some c' → sepChar c' = false := by
        intro c' hc'
        exact hb c' (by rw [List.getLast?_cons_cons]; exact hc')
      have hrec := ih hu.2 hb2
      simp only [List.cons_append] at hrec ⊢
      simp only [noTwoSeps, Bool.and_eq_true]
      exact ⟨hu.1, hrec⟩

/-- A list made of word and separator blocks, ending in a word
character: closed under concatenation. -/
theorem block_append {u v : List Char}
    (hu1 : noTwoSeps u = true) (hu2 : ∀ c, u.getLast? = some c → wordChar c = true)
    (hv1 : noTwoSeps v = true) (hv2 : ∀ c, v.getLast? = some c → wordChar c = true) :
    noTwoSeps (u ++ v) = true ∧
      ∀ c, (u ++ v).getLast? = some c → wordChar c = true := by
  refine ⟨noTwoSeps_append hu1 hv1 (fun c hc => wordChar_not_sep (hu2 c hc)), ?_⟩
  intro c hc
  rw [List.getLast?_append] at hc
  cases hvl : v.getLast? with
  | none =>
    rw [hvl] at hc
    simp at hc
    exact hu2 c hc
  | some c' =>
    rw [hvl] at hc
    have hcc : c' = c := by simpa using hc
    subst hcc
    exact hv2 c' hvl

theorem all_word_block {u : List Char} (h : ∀ c ∈ u, wordChar c = true) :
    noTwoSeps u = true ∧ ∀ c, u.getLast? = some c → wordChar c = true :=
  ⟨noTwoSeps_of_all_word h, fun c hc => h c (mem_of_getLast? hc)⟩

theorem onlyChars_wplus_word : onlyChars wordChar wplus :=
  ⟨fun _ h => h, fun _ h => h⟩

theorem wplus_inv {cs : List Char} (h : RMatch wplus cs) :
    cs ≠ [] ∧ ∀ c ∈ cs, wordChar c = true := by
  constructor
  · unfold wplus at h
    cases h with
    | cat h1 h2 =>
      cases h1 with
      | cls p c hc => simp
  · exact fun c hc => rmatch_onlyChars h onlyChars_wplus_word c hc

theorem star_elim {a : Regex} {P : List Char → Prop}
    (hnil : P []) (hcons : ∀ u v, RMatch a u → P v → P (u ++ v)) :
    ∀ {r : Regex} {cs : List Char}, RMatch r cs → r = .star a → P cs := by
  intro r cs h
  induction h with
  | eps => intro heq; cases heq
  | cls p c hp => intro heq; cases heq
  | cat h1 h2 ih1 ih2 => intro heq; cases heq
  | altL h ih => intro heq; cases heq
  | altR h ih => intro heq; cases heq
  | starNil r0 => intro _; exact hnil
  | starCons h1 h2 ih1 ih2 =>
    intro heq
    injection heq with heq'
    subst heq'
    exact hcons _ _ h1 (ih2 rfl)

theorem star_block_inv {a : Regex}
    (hblock : ∀ u, RMatch a u →
      noTwoSeps u = true ∧ ∀ c, u.getLast? = some c → wordChar c = true) :
    ∀ {cs : List Char}, RMatch (.star a) cs →
      noTwoSeps cs = true ∧ ∀ c, cs.getLast? = some c → wordChar c = true := by
  intro cs h
  exact @star_elim a
    (fun cs => noTwoSeps cs = true ∧ ∀ c, cs.getLast? = some c → wordChar c = true)
    ⟨rfl, fun c hc => by simp at hc⟩
    (fun u v hu hP => block_append (hblock u hu).1 (hblock u hu).2 hP.1 hP.2)
    (.star a) cs h rfl

theorem sepSeg_inv {cs : List Char} (h : RMatch sepSeg cs) :
    noTwoSeps cs = true ∧ ∀ c, cs.getLast? = some c → wordChar c = true := by
  unfold sepSeg at h
  cases h with
  | cat hs hw =>
    rename_i u v
    obtain ⟨hwne, hwall⟩ := wplus_inv hw
    refine ⟨?_, ?_⟩
    · cases hs with
      | altL hcls =>
        cases hcls with
        | cls p c0 hc0 =>
          rw [List.singleton_append]
          exact noTwoSeps_cons_all_word hwall
      | altR heps =>
        cases heps
        rw [List.nil_append]
        exact noTwoSeps_of_all_word hwall
    · intro c hc
      rw [List.getLast?_append] at hc
      cases hvl : v.getLast? with
      | none =>
        rw [List.getLast?_eq_none_iff] at hvl
        exact absurd hvl hwne
      | some c' =>
        rw [hvl] at hc
        have hcc : c' = c := by simpa using hc
        subst hcc
        exact hwall c' (mem_of_getLast? hvl)

theorem segs_inv {cs : List Char} (h : RMatch segs cs) :
    noTwoSeps cs = true ∧ ∀ c, cs.getLast? = some c → wordChar c = true := by
  unfold segs at h
  cases h with
  | cat hw hstar =>
    obtain ⟨hune, huall⟩ := wplus_inv hw
    obtain ⟨h3, h4⟩ := star_block_inv (fun u' hu' => sepSeg_inv hu') hstar
    obtain ⟨b1, b2⟩ := all_word_block huall
    exact block_append b1 b2 h3 h4

theorem tld_inv {cs : List Char} (h : RMatch tld cs) :
    noTwoSeps cs = true ∧ ∀ c, cs.getLast? = some c → wordChar c = true := by
  unfold tld at h
  cases h with
  | cat hdot hrest =>
    cases hdot with
    | cls p c0 hc0 =>
      cases hrest with
      | cat hw1 hwp =>
        cases hw1 with
        | cls q c1 hc1 =>
          rename_i w
          obtain ⟨hwne, hwall⟩ := wplus_inv hwp
          have hall : ∀ c ∈ c1 :: w, wordChar c = true := by
            intro c hc
            rcases List.mem_cons.mp hc with rfl | hm
            · exact hc1
            · exact hwall c hm
          constructor
          · rw [List.singleton_append, List.cons_append]
            exact noTwoSeps_cons_all_word (by
              intro c hc
              rcases List.mem_cons.mp hc with rfl | hm
              · exact hc1
              · exact hwall c hm)
          · intro c hc
            rw [List.singleton_append, List.cons_append,
              List.getLast?_cons_cons] at hc
            exact hall c (mem_of_getLast? hc)

theorem tldPart_inv {cs : List Char} (h : RMatch tldPart cs) :
    noTwoSeps cs = true ∧ ∀ c, cs.getLast? = some c → wordChar c = true := by
  unfold tldPart at h
  cases h with
  | cat h1 h2 =>
    obtain ⟨ha, hb⟩ := tld_inv h1
    obtain ⟨hc, hd⟩ := star_block_inv (fun u hu => tld_inv hu) h2
    exact block_append ha hb hc hd

/-- No matched email contains two adjacent separator characters. -/
theorem email_noTwoSeps {cs : List Char} (h : RMatch emailRegex cs) :
    noTwoSeps cs = true := by
  obtain ⟨u, d, t, hcs, hu, hd, ht⟩ := email_shape h
  subst hcs
  obtain ⟨hu1, hu2⟩ := segs_inv hu
  obtain ⟨hd1, hd2⟩ := segs_inv hd
  obtain ⟨ht1, ht2⟩ := tldPart_inv ht
  obtain ⟨hdt1, hdt2⟩ := block_append hd1 hd2 ht1 ht2
  have hmid : noTwoSeps ('@' :: (d ++ t)) = true := by
    rw [noTwoSeps_cons_not_sep (by decide)]
    exact hdt1
  exact noTwoSeps_append hu1 hmid (fun c hc => wordChar_not_sep (hu2 c hc))

/-- A string with two adjacent separators is rejected. -/
theorem consec_sep_invalid {s : String} (h : noTwoSeps s.data = false) :
    emailValid s = false := by
  cases hv : emailValid s with
  | false => rfl
  | true =>
    have h2 := email_noTwoSeps
      (rmatch_sound s.data emailRegex (by simpa [emailValid] using hv))
    rw [h2] at h
    cases h

/-- Every malformed email of the three classes is rejected. -/
theorem malformed_invalid {s : String} (h : malformedEmail s) :
    emailValid s = false := by
  rcases h with h | ⟨u, v, hsplit, hv_at, hv_dot⟩ | h
  · exact missing_at_invalid h
  · exact missing_domain_invalid hsplit hv_at hv_dot
  · exact consec_sep_invalid h

/-!
## Shared inversion lemmas for the run
-/

theorem checkDataset_err_shape {fs : FS} {p : String} {e : Err}
    (h : checkDataset fs p = .error e) :
    e = .NotFoundError ∨ e = .FormatError ∨ e = .SchemaError := by
  rcases hfs : fs p with _ | f
  · rw [checkDataset_none hfs] at h
    exact Or.inl (Except.error.inj h).symm
  · rcases f with df | b
    · by_cases h1 : df.empty
      · rw [show checkDataset fs p = .error .SchemaError by simp [checkDataset, hfs, h1]] at h
        exact Or.inr (Or.inr (Except.error.inj h).symm)
      · by_cases h2 : df.hasRequired
        · by_cases h3 : df.hasNullRequired
          · rw [show checkDataset fs p = .error .SchemaError by
              simp [checkDataset, hfs, h1, h2, h3]] at h
            exact Or.inr (Or.inr (Except.error.inj h).symm)
          · rw [show checkDataset fs p = .ok df by simp [checkDataset, hfs, h1, h2, h3]] at h
            cases h
        · rw [show checkDataset fs p = .error .SchemaError by
            simp [checkDataset, hfs, h1, h2]] at h
          exact Or.inr (Or.inr (Except.error.inj h).symm)
    · rw [checkDataset_raw hfs] at h
      exact Or.inr (Or.inl (Except.error.inj h).symm)

/-- Past the two validation gates, a run can no longer surface a
`ValidationError`. -/
theorem run_res_not_validation (env : Env) (kp tp dp uid email : String)
    (mh : Model) (lon lat : Int) (df : DataFrame) (msg : String)
    (hcd : checkDataset env.fs dp = .ok df) (hemv : emailValid email = true) :
    (full_deployment env kp tp dp uid email (some mh) lon lat).res
      ≠ .error (.ValidationError msg) := by
  intro h
  rcases hx : extractLoop env tp kp uid email 0 3 with ⟨rx, evsx⟩
  rcases rx with e | data
  · rw [full_deployment_extract_err hcd hemv hx] at h
    have he := Except.error.inj h
    rcases extractLoop_err_shape env tp kp uid email 3 0 e evsx hx with
      rfl | ⟨m1, rfl⟩ | ⟨m1, rfl⟩ <;> exact Err.noConfusion he
  · rw [full_deployment_extract_ok hcd hemv hx] at h
    by_cases hlen : df.cols.length = data.cols.length
    · by_cases hcols : df.cols = data.cols
      · rw [reconcileStage_eq hcols] at h
        by_cases hcopy : env.copyfileOk
        · by_cases hw : env.toCsvOk
          · rw [appendStage_ok hcopy hw] at h
            rcases hpr : env.pr dp uid with msg2 | plist
            · rw [recommendStage_pr_err hpr] at h
              exact Err.noConfusion (Except.error.inj h)
            · rcases hcc : env.cc dp uid plist lon lat with msg2 | r
              · rw [recommendStage_cc_err hpr hcc] at h
                exact Err.noConfusion (Except.error.inj h)
              · rw [recommendStage_ok hpr hcc] at h
                exact Except.noConfusion h
          · rw [appendStage_persist_fail hcopy (by simpa using hw)] at h
            exact Err.noConfusion (Except.error.inj h)
        · rw [appendStage_backup_fail (by simpa using hcopy)] at h
          exact Err.noConfusion (Except.error.inj h)
      · rw [reconcileStage_cols_ne hlen hcols] at h
        exact Err.noConfusion (Except.error.inj h)
    · rw [reconcileStage_len_ne hlen] at h
      exact Err.noConfusion (Except.error.inj h)

/-- If a run surfaces a `ValidationError`, the dataset had already loaded
and validated, and the message pins down which gate fired. -/
theorem run_validation_inv (env : Env) (kp tp dp uid email : String)
    (model : Option Model) (lon lat : Int) (msg : String)
    (h : (full_deployment env kp tp dp uid email model lon lat).res
      = .error (.ValidationError msg)) :
    (∃ df, checkDataset env.fs dp = .ok df) ∧
    (msg = "Email is not valid." → emailValid email = false) ∧
    (msg = "The model parameter is required but not provided." →
      emailValid email = true ∧ model = none) := by
  rcases hcd : checkDataset env.fs dp with e | df
  · rw [full_deployment_load_err hcd] at h
    have he := Except.error.inj h
    rcases checkDataset_err_shape hcd with rfl | rfl | rfl <;> exact Err.noConfusion he
  · refine ⟨⟨df, rfl⟩, ?_, ?_⟩
    · intro hmsg
      cases hemv : emailValid email with
      | false => rfl
      | true =>
        exfalso
        subst hmsg
        cases model with
        | none =>
          rw [full_deployment_no_model hcd hemv] at h
          exact absurd (Err.ValidationError.inj (Except.error.inj h)) (by decide)
        | some mh =>
          exact run_res_not_validation env kp tp dp uid email mh lon lat df _ hcd hemv h
    · intro hmsg
      cases hemv : emailValid email with
      | false =>
        exfalso
        rw [full_deployment_bad_email hcd hemv] at h
        have h2 := (Err.ValidationError.inj (Except.error.inj h)).trans hmsg
        exact absurd h2 (by decide)
      | true =>
        refine ⟨rfl, ?_⟩
        cases model with
        | none => rfl
        | some mh =>
          exfalso
          exact run_res_not_validation env kp tp dp uid email mh lon lat df _ hcd hemv h

/-!
## Claims
-/

/-- C1: the extraction step retries only when a malformed-JSON decode
failure is raised, performs at most 3 additional attempts (4 total),
re-invokes both OCR and field extraction in full on every retry, and
propagates any other failure immediately without retry.  With decode
failures on attempts `0..k-1` (each a fresh OCR + extractor call,
recorded in the trace): a success at attempt `k ≤ 3` returns attempt
`k`'s data; a non-decode failure at attempt `k` propagates at once with
no further attempt; and a decode failure at attempt `k = 3` exhausts the
budget, carrying the last decode message. -/
theorem c1_retry_policy (env : Env) (tp kp uid email : String)
    (s : Nat → Struk) (m : Nat → String) (k : Nat) (hk : k ≤ 3)
    (hfail : ∀ n, n < k → env.ocr n tp = .ok (s n) ∧
      env.ved n (s n) kp uid email = .error (.jsonDecode (m n))) :
    (∀ d : VedData, env.ocr k tp = .ok (s k) →
      env.ved k (s k) kp uid email = .ok d → d.isEmptyData = false →
      extractLoop env tp kp uid email 0 3 =
        (.ok d.df, attemptTraceFrom 0 k ++ [.ocrCall k, .vedCall k]))
    ∧ (∀ msg, env.ocr k tp = .ok (s k) →
      env.ved k (s k) kp uid email = .error (.other msg) →
      extractLoop env tp kp uid email 0 3 =
        (.error (.CollabError msg), attemptTraceFrom 0 k ++ [.ocrCall k, .vedCall k]))
    ∧ (k = 3 → env.ocr 3 tp = .ok (s 3) →
      env.ved 3 (s 3) kp uid email = .error (.jsonDecode (m 3)) →
      extractLoop env tp kp uid email 0 3 =
        (.error (.ExtractionExhaustedError (m 3)), attemptTraceFrom 0 4)) := by
  have hshift := extractLoop_shift env tp kp uid email m k 0 3 hk (by
    intro n hn
    have h2 := hfail n hn
    have h3 := tryBody_decode h2.1 h2.2
    simpa using h3)
  simp only [Nat.zero_add] at hshift
  refine ⟨?_, ?_, ?_⟩
  · intro d hocr hved hne
    rw [extractLoop_of_ok (tryBody_ok hocr hved hne)] at hshift
    exact hshift
  · intro msg hocr hved
    rw [extractLoop_of_collab (tryBody_collab hocr hved)] at hshift
    exact hshift
  · intro hk3 hocr hved
    subst hk3
    rw [show (3 : Nat) - 3 = 0 from rfl] at hshift
    rw [extractLoop_of_decode_zero (tryBody_decode hocr hved)] at hshift
    exact hshift

/-- Witness for C1: a concrete environment whose extractor decode-fails
on attempts 0-2 and succeeds on attempt 3; OCR and extraction are both
re-invoked on every attempt and attempt 3's record is returned. -/
theorem c1_retry_policy_witness :
    extractLoop envRetry "i" "k" "u2" "a@b.cd" 0 3 =
      (.ok dataW, attemptTraceFrom 0 3 ++ [.ocrCall 3, .vedCall 3]) :=
  (c1_retry_policy envRetry "i" "k" "u2" "a@b.cd" (fun _ => "s") (fun n => toString n) 3
    (by omega)
    (fun n hn => ⟨rfl, by simp [envRetry, envW, vedRetry, hn]⟩)).1
    ⟨false, dataW⟩ rfl rfl rfl

/-- C5: if all 4 extraction attempts fail with a decode error, the run
raises `ExtractionExhaustedError` carrying the last decode error, and
neither the backup file nor the dataset file is created or written (the
filesystem is returned unchanged). -/
theorem c5_extraction_exhausted (env : Env) (kp tp dp uid email : String)
    (lon lat : Int) (df : DataFrame) (s : Nat → Struk) (m : Nat → String)
    (hfs : env.fs dp = some (.csv df)) (hdf : validDF df = true)
    (hem : emailValid email = true)
    (hfail : ∀ n, n ≤ 3 → env.ocr n tp = .ok (s n) ∧
      env.ved n (s n) kp uid email = .error (.jsonDecode (m n))) :
    full_deployment env kp tp dp uid email (some ()) lon lat =
      ⟨.error (.ExtractionExhaustedError (m 3)), env.fs, attemptTraceFrom 0 4⟩ := by
  have hshift := extractLoop_shift env tp kp uid email m 3 0 3 (le_refl 3) (by
    intro n hn
    have h2 := hfail n (by omega)
    have h3 := tryBody_decode h2.1 h2.2
    simpa using h3)
  simp only [Nat.zero_add] at hshift
  rw [show (3 : Nat) - 3 = 0 from rfl] at hshift
  have h3 := hfail 3 (le_refl 3)
  rw [extractLoop_of_decode_zero (tryBody_decode h3.1 h3.2)] at hshift
  exact full_deployment_extract_err (checkDataset_ok_of hfs hdf) hem hshift

/-- Witness for C5: with an always-decode-failing extractor the run
raises `ExtractionExhaustedError "bad"` after 4 attempts and the
filesystem is untouched. -/
theorem c5_extraction_exhausted_witness :
    full_deployment envDecodeFail "k" "i" "d.csv" "u2" "a@b.cd" (some ()) 1 2 =
      ⟨.error (.ExtractionExhaustedError "bad"), envDecodeFail.fs, attemptTraceFrom 0 4⟩ :=
  c5_extraction_exhausted envDecodeFail "k" "i" "d.csv" "u2" "a@b.cd" 1 2 dfW
    (fun _ => "s") (fun _ => "bad") rfl (by decide) (by decide)
    (fun n _ => ⟨rfl, rfl⟩)

/-- C6: if the field-extraction collaborator returns an empty result,
the run fails with `ExtractionError` immediately: only attempt 0 runs
(no retry is consumed) and the filesystem is unchanged. -/
theorem c6_empty_extraction (env : Env) (kp tp dp uid email : String)
    (lon lat : Int) (df : DataFrame) (s0 : Struk) (d : VedData)
    (hfs : env.fs dp = some (.csv df)) (hdf : validDF df = true)
    (hem : emailValid email = true)
    (hocr : env.ocr 0 tp = .ok s0) (hved : env.ved 0 s0 kp uid email = .ok d)
    (hd : d.isEmptyData = true) :
    full_deployment env kp tp dp uid email (some ()) lon lat =
      ⟨.error .ExtractionError, env.fs, [.ocrCall 0, .vedCall 0]⟩ :=
  full_deployment_extract_err (checkDataset_ok_of hfs hdf) hem
    (extractLoop_of_empty (tryBody_empty hocr hved hd))

/-- Witness for C6 at a concrete environment whose extractor returns an
empty mapping on the first attempt. -/
theorem c6_empty_extraction_witness :
    full_deployment envEmptyVed "k" "i" "d.csv" "u2" "a@b.cd" (some ()) 1 2 =
      ⟨.error .ExtractionError, envEmptyVed.fs, [.ocrCall 0, .vedCall 0]⟩ :=
  c6_empty_extraction envEmptyVed "k" "i" "d.csv" "u2" "a@b.cd" 1 2 dfW "s"
    ⟨true, dataW⟩ rfl (by decide) (by decide) rfl rfl rfl

/-- C2: after a successful run, the backup file's content equals the
dataset's pre-run content, and the dataset file's content equals the
pre-run rows followed by the extracted record's rows, with the column
set and order unchanged. -/
theorem c2_durable_append (env : Env) (kp tp dp uid email : String)
    (lon lat : Int) (df data : DataFrame) (evs : List Event)
    (plist : ProductList) (r : RecResult)
    (hfs : env.fs dp = some (.csv df)) (hdf : validDF df = true)
    (hem : emailValid email = true)
    (hx : extractLoop env tp kp uid email 0 3 = (.ok data, evs))
    (hcols : data.cols = df.cols)
    (hcopy : env.copyfileOk = true) (hw : env.toCsvOk = true)
    (hpr : env.pr dp uid = .ok plist) (hcc : env.cc dp uid plist lon lat = .ok r) :
    (full_deployment env kp tp dp uid email (some ()) lon lat).res = .ok r
    ∧ (full_deployment env kp tp dp uid email (some ()) lon lat).fs (dp ++ ".backup")
        = some (.csv df)
    ∧ (full_deployment env kp tp dp uid email (some ()) lon lat).fs dp
        = some (.csv ⟨df.cols, df.rows ++ data.rows⟩) := by
  have hrun : full_deployment env kp tp dp uid email (some ()) lon lat =
      ⟨.ok r,
       FS.write (FS.write env.fs (dp ++ ".backup") ((env.fs dp).getD (.raw "")))
         dp (.csv ⟨df.cols, df.rows ++ data.rows⟩),
       evs ++ [.prCall, .ccCall]⟩ := by
    rw [full_deployment_extract_ok (checkDataset_ok_of hfs hdf) hem hx,
      reconcileStage_eq hcols.symm, appendStage_ok hcopy hw,
      recommendStage_ok hpr hcc]
  rw [hrun]
  refine ⟨rfl, ?_, ?_⟩
  · show FS.write (FS.write env.fs (dp ++ ".backup") ((env.fs dp).getD (.raw "")))
        dp (.csv ⟨df.cols, df.rows ++ data.rows⟩) (dp ++ ".backup") = some (.csv df)
    rw [fs_write_other _ _ (backup_path_ne dp), fs_write_self, hfs]
    rfl
  · show FS.write (FS.write env.fs (dp ++ ".backup") ((env.fs dp).getD (.raw "")))
        dp (.csv ⟨df.cols, df.rows ++ data.rows⟩) dp
      = some (.csv ⟨df.cols, df.rows ++ data.rows⟩)
    exact fs_write_self _ _ _

/-- Witness for C2 on the happy-path environment. -/
theorem c2_durable_append_witness :
    (full_deployment envW "k" "i" "d.csv" "u2" "a@b.cd" (some ()) 1 2).res = .ok "rec" ∧
    (full_deployment envW "k" "i" "d.csv" "u2" "a@b.cd" (some ()) 1 2).fs
      ("d.csv" ++ ".backup") = some (.csv dfW) ∧
    (full_deployment envW "k" "i" "d.csv" "u2" "a@b.cd" (some ()) 1 2).fs "d.csv"
      = some (.csv ⟨dfW.cols, dfW.rows ++ dataW.rows⟩) :=
  c2_durable_append envW "k" "i" "d.csv" "u2" "a@b.cd" 1 2 dfW dataW
    [.ocrCall 0, .vedCall 0] ["p"] "rec" rfl (by decide) (by decide) rfl rfl rfl rfl rfl rfl

/-- C3: if the backup copy fails, the run raises `BackupError` and the
append does not proceed (the filesystem, dataset file included, is
unchanged); and in every run whatsoever, if the dataset file was
mutated then the backup sibling holds the dataset's pre-run content —
the copy happens before any mutation and overwrites any prior backup. -/
theorem c3_backup_before_write (env : Env) (kp tp dp uid email : String)
    (lon lat : Int) (df data : DataFrame) (evs : List Event)
    (hfs : env.fs dp = some (.csv df)) (hdf : validDF df = true)
    (hem : emailValid email = true)
    (hx : extractLoop env tp kp uid email 0 3 = (.ok data, evs))
    (hcols : data.cols = df.cols)
    (hcopy : env.copyfileOk = false) :
    full_deployment env kp tp dp uid email (some ()) lon lat =
      ⟨.error .BackupError, env.fs, evs⟩
    ∧ ∀ (env2 : Env) (kp2 tp2 dp2 uid2 email2 : String) (model2 : Option Model)
        (lon2 lat2 : Int),
      (full_deployment env2 kp2 tp2 dp2 uid2 email2 model2 lon2 lat2).fs dp2
          ≠ env2.fs dp2 →
      (full_deployment env2 kp2 tp2 dp2 uid2 email2 model2 lon2 lat2).fs
          (dp2 ++ ".backup") = env2.fs dp2 := by
  constructor
  · rw [full_deployment_extract_ok (checkDataset_ok_of hfs hdf) hem hx,
      reconcileStage_eq hcols.symm, appendStage_backup_fail hcopy]
  · intro env2 kp2 tp2 dp2 uid2 email2 model2 lon2 lat2 hne
    rcases hcd : checkDataset env2.fs dp2 with e | df2
    · rw [full_deployment_load_err hcd] at hne
      exact absurd rfl hne
    · obtain ⟨hfs2, hv2⟩ := checkDataset_ok_inv hcd
      cases hemv : emailValid email2 with
      | false =>
        rw [full_deployment_bad_email hcd hemv] at hne
        exact absurd rfl hne
      | true =>
        cases model2 with
        | none =>
          rw [full_deployment_no_model hcd hemv] at hne
          exact absurd rfl hne
        | some mh =>
          rcases hx2 : extractLoop env2 tp2 kp2 uid2 email2 0 3 with ⟨rx, evsx⟩
          rcases rx with e | data2
          · rw [full_deployment_extract_err hcd hemv hx2] at hne
            exact absurd rfl hne
          · rw [full_deployment_extract_ok hcd hemv hx2] at hne ⊢
            by_cases hlen : df2.cols.length = data2.cols.length
            · by_cases hcols2 : df2.cols = data2.cols
              · rw [reconcileStage_eq hcols2] at hne ⊢
                by_cases hcopy2 : env2.copyfileOk
                · by_cases hw2 : env2.toCsvOk
                  · simp only [appendStage_ok hcopy2 hw2, recommendStage_fs]
                    simp [FS.write, backup_path_ne dp2, hfs2]
                  · simp only [appendStage_persist_fail hcopy2 (by simpa using hw2)]
                    simp [FS.write, backup_path_ne dp2, hfs2]
                · rw [appendStage_backup_fail (by simpa using hcopy2)] at hne
                  exact absurd rfl hne
              · rw [reconcileStage_cols_ne hlen hcols2] at hne
                exact absurd rfl hne
            · rw [reconcileStage_len_ne hlen] at hne
              exact absurd rfl hne

/-- Witness for C3 at a concrete environment whose backup copy fails. -/
theorem c3_backup_before_write_witness :
    full_deployment envBackupFail "k" "i" "d.csv" "u2" "a@b.cd" (some ()) 1 2 =
      ⟨.error .BackupError, envBackupFail.fs, [.ocrCall 0, .vedCall 0]⟩ :=
  (c3_backup_before_write envBackupFail "k" "i" "d.csv" "u2" "a@b.cd" 1 2 dfW dataW
    [.ocrCall 0, .vedCall 0] rfl (by decide) (by decide) rfl rfl rfl).1

/-- C4 counterexample: when the extracted record has a different column
count, the comparison `df.columns == data.columns` raises pandas's
length-mismatch `ValueError` rather than the pipeline's
`SchemaMismatchError` of line 81. -/
theorem c4_counterexample :
    dfW.cols ≠ dataShort.cols ∧
    (full_deployment envShort "k" "i" "d.csv" "u2" "a@b.cd" (some ()) 1 2).res
      = .error .LengthMismatchError ∧
    (full_deployment envShort "k" "i" "d.csv" "u2" "a@b.cd" (some ()) 1 2).res
      ≠ .error .SchemaMismatchError := by
  refine ⟨by decide, rfl, fun h => ?_⟩
  exact absurd (Except.error.inj h) (by decide)

/-- C4 (amended): if the extracted record's columns differ from the
dataset's in name or order with the same count, the run raises
`SchemaMismatchError`; if the count differs, the column comparison
itself raises pandas's length-mismatch `ValueError`; in both cases the
dataset file (indeed the whole filesystem) is left unchanged. -/
theorem c4_schema_mismatch (env : Env) (kp tp dp uid email : String)
    (lon lat : Int) (df data : DataFrame) (evs : List Event)
    (hfs : env.fs dp = some (.csv df)) (hdf : validDF df = true)
    (hem : emailValid email = true)
    (hx : extractLoop env tp kp uid email 0 3 = (.ok data, evs)) :
    (df.cols.length ≠ data.cols.length →
      full_deployment env kp tp dp uid email (some ()) lon lat =
        ⟨.error .LengthMismatchError, env.fs, evs⟩)
    ∧ (df.cols.length = data.cols.length → df.cols ≠ data.cols →
      full_deployment env kp tp dp uid email (some ()) lon lat =
        ⟨.error .SchemaMismatchError, env.fs, evs⟩) := by
  constructor
  · intro hlen
    rw [full_deployment_extract_ok (checkDataset_ok_of hfs hdf) hem hx,
      reconcileStage_len_ne hlen]
  · intro hlen hne
    rw [full_deployment_extract_ok (checkDataset_ok_of hfs hdf) hem hx,
      reconcileStage_cols_ne hlen hne]

/-- Witness for the amended C4: a record of the wrong width triggers the
length-mismatch error; a permuted record of the right width triggers
`SchemaMismatchError`; the filesystem is unchanged in both runs. -/
theorem c4_schema_mismatch_witness :
    full_deployment envShort "k" "i" "d.csv" "u2" "a@b.cd" (some ()) 1 2 =
      ⟨.error .LengthMismatchError, envShort.fs, [.ocrCall 0, .vedCall 0]⟩ ∧
    full_deployment envPerm "k" "i" "d.csv" "u2" "a@b.cd" (some ()) 1 2 =
      ⟨.error .SchemaMismatchError, envPerm.fs, [.ocrCall 0, .vedCall 0]⟩ :=
  ⟨(c4_schema_mismatch envShort "k" "i" "d.csv" "u2" "a@b.cd" 1 2 dfW dataShort
      [.ocrCall 0, .vedCall 0] rfl (by decide) (by decide) rfl).1 (by decide),
   (c4_schema_mismatch envPerm "k" "i" "d.csv" "u2" "a@b.cd" 1 2 dfW dataPerm
      [.ocrCall 0, .vedCall 0] rfl (by decide) (by decide) rfl).2 (by decide) (by decide)⟩

/-- C7: dataset load fails with `NotFoundError` when the path does not
exist, `FormatError` when the file cannot be parsed, `SchemaError` when
the table is empty, lacks a required column, or has nulls in required
columns; and for every valid dataset it succeeds, returning the stored
table. -/
theorem c7_dataset_load (fs : FS) (p : String) :
    (fs p = none → checkDataset fs p = .error .NotFoundError)
    ∧ (∀ b, fs p = some (.raw b) → checkDataset fs p = .error .FormatError)
    ∧ (∀ df : DataFrame, fs p = some (.csv df) →
        (df.empty = true ∨ df.hasRequired = false ∨ df.hasNullRequired = true) →
        checkDataset fs p = .error .SchemaError)
    ∧ (∀ df : DataFrame, fs p = some (.csv df) → validDF df = true →
        checkDataset fs p = .ok df) := by
  refine ⟨fun h => checkDataset_none h, fun b h => checkDataset_raw h, ?_,
    fun df h hv => checkDataset_ok_of h hv⟩
  intro df h hbad
  apply checkDataset_invalid h
  rcases hbad with hb | hb | hb <;> simp [validDF, hb]

/-- Witness for C7: the stored valid table is returned, and a missing
path raises `NotFoundError`. -/
theorem c7_dataset_load_witness :
    checkDataset envW.fs "d.csv" = .ok dfW ∧
    checkDataset envW.fs "nope.csv" = .error .NotFoundError :=
  ⟨(c7_dataset_load envW.fs "d.csv").2.2.2 dfW rfl (by decide),
   (c7_dataset_load envW.fs "nope.csv").1 rfl⟩

/-- C8: with a loadable dataset, the run raises the email
`ValidationError` exactly when the email fails the source regex, and in
that case the filesystem is untouched (rejection happens before any
file mutation); moreover every malformed email — missing `@`, missing
domain label after the `@`, or consecutive separators — fails the
regex. -/
theorem c8_email_validator (env : Env) (kp tp dp uid email : String)
    (model : Option Model) (lon lat : Int) (df : DataFrame)
    (hfs : env.fs dp = some (.csv df)) (hdf : validDF df = true) :
    ((full_deployment env kp tp dp uid email model lon lat).res
        = .error (.ValidationError "Email is not valid.")
      ↔ emailValid email = false)
    ∧ (emailValid email = false →
        full_deployment env kp tp dp uid email model lon lat =
          ⟨.error (.ValidationError "Email is not valid."), env.fs, []⟩)
    ∧ (∀ s : String, malformedEmail s → emailValid s = false) := by
  have hcd := checkDataset_ok_of hfs hdf
  refine ⟨⟨?_, ?_⟩, ?_, fun s hs => malformed_invalid hs⟩
  · intro h
    exact (run_validation_inv env kp tp dp uid email model lon lat _ h).2.1 rfl
  · intro hem
    rw [full_deployment_bad_email hcd hem]
  · intro hem
    exact full_deployment_bad_email hcd hem

/-- Witness for C8: an email with no `@` is malformed, fails the regex,
and the run rejects it leaving the filesystem unchanged. -/
theorem c8_email_validator_witness :
    full_deployment envW "k" "i" "d.csv" "u2" "ab" (some ()) 1 2 =
      ⟨.error (.ValidationError "Email is not valid."), envW.fs, []⟩ ∧
    emailValid "ab" = false :=
  ⟨(c8_email_validator envW "k" "i" "d.csv" "u2" "ab" (some ()) 1 2 dfW rfl
      (by decide)).2.1 (by decide),
   (c8_email_validator envW "k" "i" "d.csv" "u2" "ab" (some ()) 1 2 dfW rfl
      (by decide)).2.2 "ab" (Or.inl (by decide))⟩

/-- C9: if either recommendation collaborator fails, the run raises
`RecommendationError` with a single (unretried) invocation of each
collaborator, while the dataset file remains durably updated — appended
rows persisted and backup in place — despite the failed run. -/
theorem c9_recommendation_failure (env : Env) (kp tp dp uid email : String)
    (lon lat : Int) (df data : DataFrame) (evs : List Event) (msg : String)
    (hfs : env.fs dp = some (.csv df)) (hdf : validDF df = true)
    (hem : emailValid email = true)
    (hx : extractLoop env tp kp uid email 0 3 = (.ok data, evs))
    (hcols : data.cols = df.cols)
    (hcopy : env.copyfileOk = true) (hw : env.toCsvOk = true)
    (hfail : env.pr dp uid = .error msg ∨
      ∃ plist, env.pr dp uid = .ok plist ∧ env.cc dp uid plist lon lat = .error msg) :
    (full_deployment env kp tp dp uid email (some ()) lon lat).res
        = .error (.RecommendationError msg)
    ∧ (full_deployment env kp tp dp uid email (some ()) lon lat).fs dp
        = some (.csv ⟨df.cols, df.rows ++ data.rows⟩)
    ∧ (full_deployment env kp tp dp uid email (some ()) lon lat).fs (dp ++ ".backup")
        = some (.csv df)
    ∧ ((full_deployment env kp tp dp uid email (some ()) lon lat).events
          = evs ++ [.prCall] ∨
       (full_deployment env kp tp dp uid email (some ()) lon lat).events
          = evs ++ [.prCall, .ccCall])
    ∧ Event.prCall ∉ evs ∧ Event.ccCall ∉ evs := by
  have hnotpr : Event.prCall ∉ evs := fun hm => by
    rcases extractLoop_events_shape env tp kp uid email 3 0 _ (by rw [hx]; exact hm)
      with ⟨n, h⟩ | ⟨n, h⟩ <;> cases h
  have hnotcc : Event.ccCall ∉ evs := fun hm => by
    rcases extractLoop_events_shape env tp kp uid email 3 0 _ (by rw [hx]; exact hm)
      with ⟨n, h⟩ | ⟨n, h⟩ <;> cases h
  have hstage : full_deployment env kp tp dp uid email (some ()) lon lat =
      recommendStage env dp uid lon lat
        (FS.write (FS.write env.fs (dp ++ ".backup") ((env.fs dp).getD (.raw "")))
          dp (.csv ⟨df.cols, df.rows ++ data.rows⟩)) evs := by
    rw [full_deployment_extract_ok (checkDataset_ok_of hfs hdf) hem hx,
      reconcileStage_eq hcols.symm, appendStage_ok hcopy hw]
  rcases hfail with hpr | ⟨plist, hpr, hcc⟩
  · rw [hstage, recommendStage_pr_err hpr]
    refine ⟨rfl, ?_, ?_, Or.inl rfl, hnotpr, hnotcc⟩
    · show FS.write (FS.write env.fs (dp ++ ".backup") ((env.fs dp).getD (.raw "")))
          dp (.csv ⟨df.cols, df.rows ++ data.rows⟩) dp
        = some (.csv ⟨df.cols, df.rows ++ data.rows⟩)
      exact fs_write_self _ _ _
    · show FS.write (FS.write env.fs (dp ++ ".backup") ((env.fs dp).getD (.raw "")))
          dp (.csv ⟨df.cols, df.rows ++ data.rows⟩) (dp ++ ".backup")
        = some (.csv df)
      rw [fs_write_other _ _ (backup_path_ne dp), fs_write_self, hfs]
      rfl
  · rw [hstage, recommendStage_cc_err hpr hcc]
    refine ⟨rfl, ?_, ?_, Or.inr rfl, hnotpr, hnotcc⟩
    · show FS.write (FS.write env.fs (dp ++ ".backup") ((env.fs dp).getD (.raw "")))
          dp (.csv ⟨df.cols, df.rows ++ data.rows⟩) dp
        = some (.csv ⟨df.cols, df.rows ++ data.rows⟩)
      exact fs_write_self _ _ _
    · show FS.write (FS.write env.fs (dp ++ ".backup") ((env.fs dp).getD (.raw "")))
          dp (.csv ⟨df.cols, df.rows ++ data.rows⟩) (dp ++ ".backup")
        = some (.csv df)
      rw [fs_write_other _ _ (backup_path_ne dp), fs_write_self, hfs]
      rfl

/-- Witness for C9: a failing product recommender surfaces
`RecommendationError "boom"` while the dataset stays appended and the
backup holds the pre-run content. -/
theorem c9_recommendation_failure_witness :
    (full_deployment envPrFail "k" "i" "d.csv" "u2" "a@b.cd" (some ()) 1 2).res
        = .error (.RecommendationError "boom")
    ∧ (full_deployment envPrFail "k" "i" "d.csv" "u2" "a@b.cd" (some ()) 1 2).fs "d.csv"
        = some (.csv ⟨dfW.cols, dfW.rows ++ dataW.rows⟩)
    ∧ (full_deployment envPrFail "k" "i" "d.csv" "u2" "a@b.cd" (some ()) 1 2).fs
        ("d.csv" ++ ".backup") = some (.csv dfW)
    ∧ ((full_deployment envPrFail "k" "i" "d.csv" "u2" "a@b.cd" (some ()) 1 2).events
          = [.ocrCall 0, .vedCall 0] ++ [.prCall] ∨
       (full_deployment envPrFail "k" "i" "d.csv" "u2" "a@b.cd" (some ()) 1 2).events
          = [.ocrCall 0, .vedCall 0] ++ [.prCall, .ccCall])
    ∧ Event.prCall ∉ ([.ocrCall 0, .vedCall 0] : List Event)
    ∧ Event.ccCall ∉ ([.ocrCall 0, .vedCall 0] : List Event) :=
  c9_recommendation_failure envPrFail "k" "i" "d.csv" "u2" "a@b.cd" 1 2 dfW dataW
    [.ocrCall 0, .vedCall 0] "boom" rfl (by decide) (by decide) rfl rfl rfl rfl
    (Or.inl rfl)

/-- C10: dataset loading and dataset-schema validation run before any
caller-input validation: a missing, unparsable or schema-invalid
dataset raises its dataset error whatever the email and model handle
are; the email `ValidationError` can only be observed after a
successful dataset load; and the missing-model `ValidationError` only
with a valid email as well. -/
theorem c10_validation_order (env : Env) (kp tp dp uid email : String)
    (model : Option Model) (lon lat : Int) :
    (env.fs dp = none →
      full_deployment env kp tp dp uid email model lon lat =
        ⟨.error .NotFoundError, env.fs, []⟩)
    ∧ (∀ b, env.fs dp = some (.raw b) →
      full_deployment env kp tp dp uid email model lon lat =
        ⟨.error .FormatError, env.fs, []⟩)
    ∧ (∀ df2 : DataFrame, env.fs dp = some (.csv df2) → validDF df2 = false →
      full_deployment env kp tp dp uid email model lon lat =
        ⟨.error .SchemaError, env.fs, []⟩)
    ∧ ((full_deployment env kp tp dp uid email model lon lat).res
        = .error (.ValidationError "Email is not valid.") →
      ∃ df2, checkDataset env.fs dp = .ok df2)
    ∧ ((full_deployment env kp tp dp uid email model lon lat).res
        = .error (.ValidationError "The model parameter is required but not provided.") →
      (∃ df2, checkDataset env.fs dp = .ok df2) ∧ emailValid email = true) := by
  refine ⟨?_, ?_, ?_, ?_, ?_⟩
  · intro h
    exact full_deployment_load_err (checkDataset_none h)
  · intro b h
    exact full_deployment_load_err (checkDataset_raw h)
  · intro df2 h hv
    exact full_deployment_load_err (checkDataset_invalid h hv)
  · intro h
    exact (run_validation_inv env kp tp dp uid email model lon lat _ h).1
  · intro h
    have h2 := run_validation_inv env kp tp dp uid email model lon lat _ h
    exact ⟨h2.1, (h2.2.2 rfl).1⟩

/-- Witness for C10: with a missing dataset path, a malformed email and
an absent model handle, the run still raises `NotFoundError`. -/
theorem c10_validation_order_witness :
    full_deployment envW "k" "i" "nope.csv" "u2" "bademail" none 1 2 =
      ⟨.error .NotFoundError, envW.fs, []⟩ :=
  (c10_validation_order envW "k" "i" "nope.csv" "u2" "bademail" none 1 2).1 rfl

end MC
